import Mathlib

/-!
Shallow embedding of the deformation-analysis code in `main.py`:
`Protein.__init__`, `Protein.get_local_neighborhood`, `Protein._get_ldt`,
`AverageProtein._rotate_points`, `AverageProtein._average_all_ldt`,
`Deformation.__init__` and the five per-residue metrics of `Deformation`
(`lddt`, `ldd`, `ntd`, `shear`, `strain`).

Modelling conventions:
- a numpy float is `FVal := Option ℝ`, where `none` models NaN (or any
  non-finite value); comparisons against `none` are `False`, mirroring
  IEEE comparisons against NaN;
- numpy arrays are lists; a raised exception is `Except.error ()`;
- `np.linalg.svd` is modelled by an oracle parameter producing the
  factors `U, s, V`; theorems that depend on it assume the factors form
  a genuine singular-value decomposition, as numpy guarantees;
- free names of the source (`cut`, `min_conf`, `norm`) are explicit
  parameters, and the implicit receiver `self` is passed explicitly.
-/

namespace AF2

open Matrix

/-- A floating-point value: `some x` is the finite real `x`; `none` models
NaN (or any other non-finite value). -/
abbrev FVal := Option ℝ

/-- Componentwise float subtraction `a - b`; NaN-propagating. -/
noncomputable def fsub : FVal → FVal → FVal
  | some a, some b => some (a - b)
  | _, _ => none

/-- Float negation; NaN-propagating. -/
noncomputable def fneg : FVal → FVal := Option.map (fun x => -x)

/-- Float addition; NaN-propagating. -/
noncomputable def fadd : FVal → FVal → FVal
  | some a, some b => some (a + b)
  | _, _ => none

/-- The numpy comparison `d > 0`: `False` on NaN. -/
def fgt0 : FVal → Prop
  | some x => 0 < x
  | none => False

/-- The numpy comparison `d <= c`: `False` on NaN. -/
def fle : FVal → ℝ → Prop
  | some x, c => x ≤ c
  | none, _ => False

/-- The numpy comparison `d >= c`: `False` on NaN. -/
def fge : FVal → ℝ → Prop
  | some x, c => c ≤ x
  | none, _ => False

/-- `np.isfinite d`. -/
def ffinite : FVal → Prop
  | some _ => True
  | none => False

/-- A 3D coordinate whose components may individually be NaN. -/
abbrev CoordV := Fin 3 → FVal

/-- The all-NaN coordinate (used as the out-of-range default, which the
source never actually reads on its own inputs). -/
def nanCoord : CoordV := fun _ => none

/-- One entry of `scipy.spatial.distance.cdist`: the Euclidean distance
between two coordinates, NaN as soon as any component is NaN. -/
noncomputable def fdist (a b : CoordV) : FVal :=
  match a 0, a 1, a 2, b 0, b 1, b 2 with
  | some a0, some a1, some a2, some b0, some b1, some b2 =>
      some (Real.sqrt ((a0 - b0) ^ 2 + (a1 - b1) ^ 2 + (a2 - b2) ^ 2))
  | _, _, _, _, _, _ => none

/-- Filter of `get_local_neighborhood` for `dtype == 'pdb'` (source line 53):
`(d > 0) & (d <= cut) & (np.isfinite(d))`. -/
def pdbCond (d : FVal) (cut : ℝ) : Prop := fgt0 d ∧ fle d cut ∧ ffinite d

/-- Filter of `get_local_neighborhood` for `dtype in ['af', 'dmp']` (source
line 49): `(d > 0) & (d <= cut) & (plddt >= min_conf) & (p >= min_conf)`,
where `p` is the pLDDT of residue `i` and `plddt` that of candidate `j`. -/
def afCond (d : FVal) (cut : ℝ) (pj pi : FVal) (minConf : ℝ) : Prop :=
  fgt0 d ∧ fle d cut ∧ fge pj minConf ∧ fge pi minConf

open Classical in
/-- Row `i` of the neighbor lists under the `'pdb'` policy: the ascending
indices `j` with `(d > 0) & (d <= cut) & isfinite(d)` (`np.where` keeps
ascending order). -/
noncomputable def neighRowPdb (coord : List CoordV) (cut : ℝ) (i : ℕ) : List ℕ :=
  (List.range coord.length).filter fun j =>
    decide (pdbCond (fdist (coord.getD i nanCoord) (coord.getD j nanCoord)) cut)

open Classical in
/-- Row `i` of the neighbor lists under the `'af'` / `'dmp'` policy. -/
noncomputable def neighRowAf (coord : List CoordV) (plddt : List FVal)
    (cut minConf : ℝ) (i : ℕ) : List ℕ :=
  (List.range coord.length).filter fun j =>
    decide (afCond (fdist (coord.getD i nanCoord) (coord.getD j nanCoord)) cut
      (plddt.getD j none) (plddt.getD i none) minConf)

/-- The two filtering policies of `get_local_neighborhood`. -/
inductive Kind
  | af
  | dmp
  | pdb
deriving DecidableEq

/-- Which policy a `dtype` string selects: `'af'`/`'dmp'` use the quality
filter, `'pdb'` the NaN filter, and any other string selects nothing (the
source would hit an unbound `idx_list`). -/
def dtypeKind (s : String) : Option Kind :=
  if s = "af" then some Kind.af
  else if s = "dmp" then some Kind.dmp
  else if s = "pdb" then some Kind.pdb
  else none

/-- Neighbor lists for all residues under a given policy. -/
noncomputable def getLocalNeighborhoodK (k : Kind) (coord : List CoordV)
    (plddt : List FVal) (cut minConf : ℝ) : List (List ℕ) :=
  match k with
  | Kind.af => (List.range coord.length).map (neighRowAf coord plddt cut minConf)
  | Kind.dmp => (List.range coord.length).map (neighRowAf coord plddt cut minConf)
  | Kind.pdb => (List.range coord.length).map (neighRowPdb coord cut)

/-- One entry of the dense local distance tensor of `Protein._get_ldt`
(the branch where `neigh_idx` is a list of index lists): entry `(i, j)` is
`coord[i] - coord[j]` when `j` is a neighbor of `i`, and keeps the
`np.zeros` initialisation (the zero vector) otherwise. -/
noncomputable def ldtEntry (coord : List CoordV) (nidx : List (List ℕ))
    (i j : ℕ) : Fin 3 → FVal :=
  if j ∈ nidx.getD i [] then
    fun t => fsub (coord.getD i nanCoord t) (coord.getD j nanCoord t)
  else
    fun _ => some 0

/-- The dense `(l, l, 3)` tensor returned by `Protein._get_ldt`; row `i`
is the `(l, 3)` slice `dist[i]`. -/
noncomputable def getLdt (coord : List CoordV) (nidx : List (List ℕ)) :
    List (List (Fin 3 → FVal)) :=
  (List.range coord.length).map fun i =>
    (List.range coord.length).map fun j => ldtEntry coord nidx i j

/-- The part of a structure the `Deformation` metrics read: `neigh_idx`
and `neigh_tensor`. -/
structure DefProt where
  nidx : List (List ℕ)
  tensor : List (List (Fin 3 → FVal))

/-- `Protein.get_local_neighborhood` followed by `_get_ldt`: derives
`neigh_idx` and the dense `neigh_tensor` from the coordinates. -/
noncomputable def deriveDefProt (k : Kind) (coord : List CoordV)
    (plddt : List FVal) (cut minConf : ℝ) : DefProt :=
  let n := getLocalNeighborhoodK k coord plddt cut minConf
  { nidx := n, tensor := getLdt coord n }

/-- Fallible list indexing: `xs[i]` raising `IndexError` out of range. -/
def geterr {α : Type} (xs : List α) (i : ℕ) : Except Unit α :=
  match xs.get? i with
  | some a => Except.ok a
  | none => Except.error ()

/-- The shared-index positions computed in every `Deformation` metric
(source lines 309-310): `[j for j, k in enumerate(n1) if k in n2]`. -/
def sharedPos (n1 n2 : List ℕ) : List ℕ :=
  (n1.enum.filter fun jk => decide (jk.2 ∈ n2)).map Prod.fst

/-- Row norm `np.linalg.norm` of one 3-vector of floats; NaN-propagating. -/
noncomputable def fnorm3 (v : Fin 3 → FVal) : FVal :=
  match v 0, v 1, v 2 with
  | some x, some y, some z => some (Real.sqrt (x ^ 2 + y ^ 2 + z ^ 2))
  | _, _, _ => none

/-- `np.linalg.norm` of a float vector; NaN as soon as any entry is NaN. -/
noncomputable def fnormList (xs : List FVal) : FVal :=
  if xs.all Option.isSome then
    some (Real.sqrt (xs.map fun x => x.getD 0 ^ 2).sum)
  else
    none

/-- Division of a possibly-NaN value by a shared-neighbor count (the
`norm` branches `ldd / len(i1)` etc.); NaN-propagating. -/
noncomputable def fdivNat (x : FVal) (n : ℕ) : FVal := x.map (fun v => v / n)

/-- The data every metric extracts for one residue before computing its
score: the shared positions and the two selected tensor slices. -/
structure ResData where
  i1 : List ℕ
  c1 : List (Fin 3 → FVal)
  c2 : List (Fin 3 → FVal)

/-- The residue prologue repeated verbatim in all five metric methods
(e.g. source lines 302-318): fetch `neigh_tensor[i]` of both structures,
return NaN (`ok none`) if either slice is empty, compute the shared
positions `i1`, `i2`, return NaN if there are none, and select the rows
`c1 = t1[i1]`, `c2 = t2[i2]`. -/
noncomputable def resPrologue (p1 p2 : DefProt) (i : ℕ) :
    Except Unit (Option ResData) := do
  let t1 ← geterr p1.tensor i
  let t2 ← geterr p2.tensor i
  if t1.length = 0 ∨ t2.length = 0 then
    return none
  else
    let n1 ← geterr p1.nidx i
    let n2 ← geterr p2.nidx i
    let i1 := sharedPos n1 n2
    let i2 := sharedPos n2 n1
    if i1.length = 0 then
      return none
    else
      let c1 ← i1.mapM (geterr t1)
      let c2 ← i2.mapM (geterr t2)
      return some ⟨i1, c1, c2⟩

/-- The default bin set of `calculate_deformation_lddt`. -/
noncomputable def defaultBins : List ℝ := [0.5, 1, 2, 4]

open Classical in
/-- The per-residue body of `calculate_deformation_lddt` (source lines
295-327): after the common prologue, take row norms of both slices, form
`dv = v2 - v1` and append
`sum([sum(dv <= cut) for cut in bins]) / (4 * len(dv))`.
Note the signed comparison `dv <= cut` and the hardcoded factor 4. -/
noncomputable def lddtRes (p1 p2 : DefProt) (bins : List ℝ) (i : ℕ) :
    Except Unit FVal := do
  let bs := if bins.length = 0 then defaultBins else bins
  match ← resPrologue p1 p2 i with
  | none => return none
  | some rd =>
    let v1 := rd.c1.map fnorm3
    let v2 := rd.c2.map fnorm3
    if v1.length = v2.length then
      let dv := List.zipWith fsub v2 v1
      return some
        ((bs.map fun cut =>
            ((dv.filter fun x => decide (fle x cut)).length : ℝ)).sum
          / (4 * dv.length))
    else
      Except.error ()

/-- The per-residue body of `calculate_deformation_ldd` (source lines
332-356): `norm(ld1 - ld2)`, divided by `len(i1)` when `norm` is set. -/
noncomputable def lddRes (p1 p2 : DefProt) (normFlag : Bool) (i : ℕ) :
    Except Unit FVal := do
  match ← resPrologue p1 p2 i with
  | none => return none
  | some rd =>
    let ld1 := rd.c1.map fnorm3
    let ld2 := rd.c2.map fnorm3
    if ld1.length = ld2.length then
      let v := fnormList (List.zipWith fsub ld1 ld2)
      return (if normFlag then fdivNat v rd.i1.length else v)
    else
      Except.error ()

/-- Extraction of one tensor row into plain reals; a NaN entry would make
`np.linalg.svd` fail, modelled as an exception.  On tensors derived by
`_get_ldt` every entry is finite, so this never fails there. -/
def extractRow (v : Fin 3 → FVal) : Except Unit (Fin 3 → ℝ) :=
  if (v 0).isSome && (v 1).isSome && (v 2).isSome then
    Except.ok fun t => (v t).getD 0
  else
    Except.error ()

/-- 3x3 real matrices. -/
abbrev Mat3 := Matrix (Fin 3) (Fin 3) ℝ

/-- The factors `U, S, Vt` numpy's `np.linalg.svd` returns (with `S` the
vector of singular values). -/
structure SVDOut where
  U : Mat3
  s : Fin 3 → ℝ
  V : Mat3

/-- A model of `np.linalg.svd` on 3x3 matrices. -/
abbrev SVDOracle := Mat3 → SVDOut

/-- The oracle output at `H` is a genuine singular-value decomposition:
orthogonal factors, `H = U * diag(s) * Vᵀ`, and the singular values
nonnegative in descending order, exactly as numpy guarantees. -/
def IsSVD (out : SVDOut) (H : Mat3) : Prop :=
  out.U * out.Uᵀ = 1 ∧ out.V * out.Vᵀ = 1 ∧
    H = out.U * Matrix.diagonal out.s * out.Vᵀ ∧
    (∀ t, 0 ≤ out.s t) ∧ (∀ t u : Fin 3, t ≤ u → out.s u ≤ out.s t)

/-- The cross-covariance `H = P.T @ Q` of `_rotate_points` for two point
lists (rows of the `N×3` arrays). -/
noncomputable def crossCov (P Q : List (Fin 3 → ℝ)) : Mat3 :=
  Matrix.of fun a b => ((List.zip P Q).map fun pq => pq.1 a * pq.2 b).sum

/-- The rotation built by `AverageProtein._rotate_points` (source lines
168-174): `D = det(V @ U.T)`, `E = diag(1, 1, D)`, `R = V @ E @ U.T`. -/
noncomputable def rotationOf (o : SVDOracle) (H : Mat3) : Mat3 :=
  let out := o H
  let D := (out.V * out.Uᵀ).det
  let E := Matrix.diagonal ![1, 1, D]
  out.V * E * out.Uᵀ

/-- `AverageProtein._rotate_points`: rotate every row of `P` by the
rotation computed from the SVD of `P.T @ Q`. -/
noncomputable def rotatePoints (o : SVDOracle) (P Q : List (Fin 3 → ℝ)) :
    List (Fin 3 → ℝ) :=
  let R := rotationOf o (crossCov P Q)
  P.map fun p => R.mulVec p

/-- Norm of one real 3-vector. -/
noncomputable def rownorm (p : Fin 3 → ℝ) : ℝ :=
  Real.sqrt (p 0 ^ 2 + p 1 ^ 2 + p 2 ^ 2)

/-- Frobenius norm `np.linalg.norm` of a list of rows. -/
noncomputable def frobNorm (P : List (Fin 3 → ℝ)) : ℝ :=
  Real.sqrt (P.map fun p => p 0 ^ 2 + p 1 ^ 2 + p 2 ^ 2).sum

/-- The per-residue body of `calculate_deformation_ntd` (source lines
361-385): `norm(rotate_points(c2, c1) - c1)`, divided by `len(i1)` when
`norm` is set. -/
noncomputable def ntdRes (o : SVDOracle) (p1 p2 : DefProt) (normFlag : Bool)
    (i : ℕ) : Except Unit FVal := do
  match ← resPrologue p1 p2 i with
  | none => return none
  | some rd =>
    let c1 ← rd.c1.mapM extractRow
    let c2 ← rd.c2.mapM extractRow
    let c3 := rotatePoints o c2 c1
    if c3.length = c1.length then
      let v := frobNorm (List.zipWith (fun a b t => a t - b t) c3 c1)
      return some (if normFlag then v / rd.i1.length else v)
    else
      Except.error ()

/-- The division inside `calculate_deformation_strain`
(`norm(c3[j] - c1[j]) / norm(c1[j])`): dividing by a zero norm gives a
non-finite float (NaN when the numerator is also zero), modelled `none`. -/
noncomputable def sdiv (a b : ℝ) : FVal :=
  if b = 0 then none else some (a / b)

/-- The per-residue body of `calculate_deformation_strain` (source lines
420-449): rotate `c2` onto `c1`, then accumulate
`s += norm(c3[j] - c1[j]) / norm(c1[j])` over the rows of `c1`, dividing
by `len(i1)` at the end when `norm` is set. -/
noncomputable def strainRes (o : SVDOracle) (p1 p2 : DefProt)
    (normFlag : Bool) (i : ℕ) : Except Unit FVal := do
  match ← resPrologue p1 p2 i with
  | none => return none
  | some rd =>
    let c1 ← rd.c1.mapM extractRow
    let c2 ← rd.c2.mapM extractRow
    let c3 := rotatePoints o c2 c1
    if c1.length ≤ c3.length then
      let terms := List.zipWith
        (fun a b => sdiv (rownorm fun t => a t - b t) (rownorm b)) c3 c1
      let s := terms.foldl fadd (some 0)
      return (if normFlag then fdivNat s rd.i1.length else s)
    else
      Except.error ()

/-- The scalar `0.5 * np.sum(np.diag(C@C) - np.diag(C)**2)` scaled by the
outer `0.5` of `calculate_deformation_shear`. -/
noncomputable def shearVal (C : Mat3) : ℝ :=
  0.5 * (Finset.univ.sum fun t => (C * C) t t - C t t ^ 2)

/-- The per-residue body of `calculate_deformation_shear` (source lines
390-415).  The `try` block computes
`C = 0.5 * (uu @ u1.T @ (u2@u2.T - u1@u1.T) @ u1 @ uu)` with
`uu = inv(u1.T @ u1)`; associating the products as
`u1ᵀ(u2u2ᵀ - u1u1ᵀ)u1 = (u1ᵀu2)(u2ᵀu1) - (u1ᵀu1)²` keeps every factor
3x3.  A shape mismatch or a singular `u1.T @ u1` raises inside the
`try` and is caught as NaN. -/
noncomputable def shearRes (p1 p2 : DefProt) (i : ℕ) : Except Unit FVal := do
  match ← resPrologue p1 p2 i with
  | none => return none
  | some rd =>
    match rd.c1.mapM extractRow, rd.c2.mapM extractRow with
    | Except.ok u1, Except.ok u2 =>
      if u1.length = u2.length then
        let G := crossCov u1 u1
        let A := crossCov u1 u2
        if G.det = 0 then
          return none
        else
          let C := (0.5 : ℝ) • (G⁻¹ * (A * Aᵀ - G * G) * G⁻¹)
          return some (shearVal C)
      else
        return none
    | _, _ => return none

/-- Full per-metric arrays: the loop `for i in range(len(prot1.neigh_tensor))`
with an uncaught exception aborting the whole computation. -/
noncomputable def lddtArr (p1 p2 : DefProt) (bins : List ℝ) :
    Except Unit (List FVal) :=
  (List.range p1.tensor.length).mapM (lddtRes p1 p2 bins)

/-- The `ldd` array. -/
noncomputable def lddArr (p1 p2 : DefProt) (normFlag : Bool) :
    Except Unit (List FVal) :=
  (List.range p1.tensor.length).mapM (lddRes p1 p2 normFlag)

/-- The `ntd` array. -/
noncomputable def ntdArr (o : SVDOracle) (p1 p2 : DefProt) (normFlag : Bool) :
    Except Unit (List FVal) :=
  (List.range p1.tensor.length).mapM (ntdRes o p1 p2 normFlag)

/-- The `shear` array. -/
noncomputable def shearArr (p1 p2 : DefProt) : Except Unit (List FVal) :=
  (List.range p1.tensor.length).mapM (shearRes p1 p2)

/-- The `strain` array. -/
noncomputable def strainArr (o : SVDOracle) (p1 p2 : DefProt)
    (normFlag : Bool) : Except Unit (List FVal) :=
  (List.range p1.tensor.length).mapM (strainRes o p1 p2 normFlag)

/-- The state `Deformation.__init__` builds from two already-constructed
structures (source lines 229-248): it stores both inputs; no length
comparison of any kind is performed. -/
structure DeformationE where
  prot1 : DefProt
  prot2 : DefProt

/-- `Deformation.__init__` on two already-derived structures. -/
def deformationInit (p1 p2 : DefProt) : DeformationE := ⟨p1, p2⟩

/-- The keyword arguments read by `Protein.__init__` that matter for the
header fields (each `none` when the caller does not pass the keyword).
The `dtype` field records a `dtype=` keyword a caller may pass. -/
structure PKwargs where
  name : Option String := none
  dtype : Option String := none
  sequence : Option String := none
  neigh_cut : Option ℝ := none
  min_plddt : Option ℝ := none
  max_bfactor : Option ℝ := none

/-- The scalar fields `Protein.__init__` stores. -/
structure ProteinHdr where
  name : String
  dtype : String
  sequence : String
  neigh_cut : ℝ
  min_plddt : ℝ
  max_bfactor : ℝ

/-- `Protein.__init__` (source lines 7-20): note line 9,
`self.dtype = kwargs.get('name', '')` — the `dtype` field is read from
the `name` keyword, and a `dtype=` keyword is never consulted. -/
def proteinInit (kw : PKwargs) : ProteinHdr :=
  { name := kw.name.getD ""
    dtype := kw.name.getD ""
    sequence := kw.sequence.getD ""
    neigh_cut := kw.neigh_cut.getD 0
    min_plddt := kw.min_plddt.getD 0
    max_bfactor := kw.max_bfactor.getD 0 }

/-- `Protein.get_local_neighborhood` dispatching on the stored `dtype`
string (source lines 43-53); an unknown `dtype` leaves `idx_list`
unbound, modelled as `none`. -/
noncomputable def getLocalNeighborhoodP (p : ProteinHdr) (coord : List CoordV)
    (plddt : List FVal) (cut minConf : ℝ) : Option (List (List ℕ)) :=
  (dtypeKind p.dtype).map fun k => getLocalNeighborhoodK k coord plddt cut minConf

/-- `np.mean(ldt_list[i], axis=0)`: the elementwise mean over the outer
list of equally-shaped row lists. -/
noncomputable def meanLdt (ls : List (List (Fin 3 → ℝ))) :
    List (Fin 3 → ℝ) :=
  match ls with
  | [] => []
  | l0 :: _ =>
    (List.range l0.length).map fun j t =>
      (ls.map fun l => l.getD j (fun _ => 0) t).sum / ls.length

/-- `AverageProtein._average_all_ldt` (source lines 216-224): residue `i`
gets the elementwise mean of its aligned neighborhoods when
`len(idx_list[i]) > 1`, and the literal empty list `[]` otherwise. -/
noncomputable def averageAllLdt (ldt_list : List (List (List (Fin 3 → ℝ))))
    (idx_list : List (List ℕ)) : List (List (Fin 3 → ℝ)) :=
  (List.range ldt_list.length).map fun i =>
    if 1 < (idx_list.getD i []).length then meanLdt (ldt_list.getD i [])
    else []

/-- The numpy test `|x| <= c` on a possibly-NaN value. -/
def fabsLe : FVal → ℝ → Prop
  | some x, c => |x| ≤ c
  | none, _ => False

open Classical in
/-- Modelled from the spec: the lddt score as the specification words it —
"count of neighbor-distance-norm differences *within* each bin", i.e. the
absolute difference at most each cutoff — over the same prologue, shared
rows and bin set as `lddtRes`.  Used only to compare the specified score
with the one the code computes. -/
noncomputable def lddtResSpec (p1 p2 : DefProt) (bins : List ℝ) (i : ℕ) :
    Except Unit FVal := do
  let bs := if bins.length = 0 then defaultBins else bins
  match ← resPrologue p1 p2 i with
  | none => return none
  | some rd =>
    let v1 := rd.c1.map fnorm3
    let v2 := rd.c2.map fnorm3
    if v1.length = v2.length then
      let dv := List.zipWith fsub v2 v1
      return some
        ((bs.map fun cut =>
            ((dv.filter fun x => decide (fabsLe x cut)).length : ℝ)).sum
          / (4 * dv.length))
    else
      Except.error ()

/-! Helper lemmas shared by several developments below. -/

@[simp]
theorem bind_ok {α β : Type} (a : α) (f : α → Except Unit β) :
    (Except.ok a >>= f) = f a := rfl

@[simp]
theorem bind_err {α β : Type} (f : α → Except Unit β) :
    ((Except.error () : Except Unit α) >>= f) = Except.error () := rfl

theorem mapM_ok_of_forall {α β : Type} (f : α → Except Unit β) (g : α → β) :
    ∀ l : List α, (∀ a ∈ l, f a = Except.ok (g a)) →
      l.mapM f = Except.ok (l.map g) := by
  intro l
  induction l with
  | nil => intro _; rfl
  | cons a t ih =>
    intro h
    rw [List.mapM_cons, h a (List.mem_cons_self a t),
      ih fun b hb => h b (List.mem_cons_of_mem a hb)]
    rfl

theorem mapM_err_of_mem {α β : Type} (f : α → Except Unit β) :
    ∀ l : List α, (∃ a ∈ l, f a = Except.error ()) →
      l.mapM f = Except.error () := by
  intro l
  induction l with
  | nil =>
    rintro ⟨a, ha, -⟩
    exact absurd ha (List.not_mem_nil a)
  | cons a t ih =>
    rintro ⟨b, hb, hfb⟩
    rw [List.mapM_cons]
    rcases List.mem_cons.mp hb with h | h
    · subst h
      rw [hfb]
      rfl
    · cases hfa : f a with
      | error e =>
        cases e
        rfl
      | ok v =>
        rw [ih ⟨b, h, hfb⟩]
        rfl

theorem getD_range_map {α : Type} (f : ℕ → α) {n i : ℕ} (hi : i < n) (d : α) :
    ((List.range n).map f).getD i d = f i := by
  rw [List.getD_eq_getElem?_getD, List.getElem?_map, List.getElem?_range hi]
  rfl

theorem fsub_antisym (a b : FVal) : fsub a b = fneg (fsub b a) := by
  cases a with
  | none => cases b <;> rfl
  | some x =>
    cases b with
    | none => rfl
    | some y => simp [fsub, fneg, neg_sub]

/-! Claim theorems. -/

/-- C10: the `dtype` field stored by `Protein.__init__` equals the value
passed for the `name` keyword (empty string when absent); a `dtype=`
keyword is never read — two argument sets agreeing on `name` yield the
same stored `dtype` — so the filtering policy of
`get_local_neighborhood` is selected by the structure's name string. -/
theorem c10_dtype_is_name (kw : PKwargs) :
    (proteinInit kw).dtype = kw.name.getD "" ∧
    (∀ kw' : PKwargs, kw'.name = kw.name →
      (proteinInit kw').dtype = (proteinInit kw).dtype) ∧
    (∀ coord plddt cut minConf,
      getLocalNeighborhoodP (proteinInit kw) coord plddt cut minConf =
        (dtypeKind (kw.name.getD "")).map
          fun k => getLocalNeighborhoodK k coord plddt cut minConf) := by
  refine ⟨rfl, ?_, ?_⟩
  · intro kw' h
    simp only [proteinInit, h]
  · intro coord plddt cut minConf
    rfl

/-- Witness for C10 at a concrete argument set: passing `name='pdb'`
together with an (ignored) `dtype='af'` stores `dtype = "pdb"`, the same
as passing no `dtype` keyword at all. -/
theorem c10_dtype_is_name_witness :
    (proteinInit ⟨some "pdb", some "af", none, none, none, none⟩).dtype = "pdb" ∧
    (proteinInit ⟨some "pdb", none, none, none, none, none⟩).dtype =
      (proteinInit ⟨some "pdb", some "af", none, none, none, none⟩).dtype :=
  ⟨(c10_dtype_is_name ⟨some "pdb", some "af", none, none, none, none⟩).1,
    (c10_dtype_is_name ⟨some "pdb", some "af", none, none, none, none⟩).2.1
      ⟨some "pdb", none, none, none, none, none⟩ rfl⟩

/-- C7: in `_average_all_ldt`, a residue whose consensus neighbor count
is at most 1 is skipped — its entry is the literal empty record, never an
averaged value — and the elementwise average is recorded exactly when the
count exceeds 1. -/
theorem c7_consensus_degenerate (ldt_list : List (List (List (Fin 3 → ℝ))))
    (idx_list : List (List ℕ)) (i : ℕ) (hi : i < ldt_list.length) :
    ((idx_list.getD i []).length ≤ 1 →
      (averageAllLdt ldt_list idx_list).getD i [] = []) ∧
    (1 < (idx_list.getD i []).length →
      (averageAllLdt ldt_list idx_list).getD i [] =
        meanLdt (ldt_list.getD i [])) := by
  rw [averageAllLdt, getD_range_map _ hi]
  constructor
  · intro h
    rw [if_neg (by omega)]
  · intro h
    rw [if_pos h]

/-- Witness for C7: one ensemble residue with a single consensus neighbor
yields the empty entry. -/
theorem c7_consensus_degenerate_witness :
    (averageAllLdt [[[fun _ => (1 : ℝ)]]] [[5]]).getD 0 [] = [] :=
  (c7_consensus_degenerate [[[fun _ => (1 : ℝ)]]] [[5]] 0
    (by simp)).1 (by simp)

/-- C9: in the dense tensor of `Protein._get_ldt`, whenever both the
(i,j) and the (j,i) displacement entries are stored (both neighbor
relations hold), the entry for (i,j) is the exact negation of the entry
for (j,i), although each is computed independently from the coordinates
(`coord[i] - coord[j]` versus `coord[j] - coord[i]`). -/
theorem c9_antisymmetry (coord : List CoordV) (nidx : List (List ℕ))
    (i j : ℕ) (hij : j ∈ nidx.getD i []) (hji : i ∈ nidx.getD j []) (t : Fin 3) :
    ldtEntry coord nidx i j t = fneg (ldtEntry coord nidx j i t) := by
  rw [ldtEntry, if_pos hij, ldtEntry, if_pos hji]
  exact fsub_antisym _ _

/-- Witness for C9 on a concrete two-residue structure whose residues
are mutual neighbors. -/
theorem c9_antisymmetry_witness :
    ldtEntry [fun _ => some 0, fun _ => some 1] [[1], [0]] 0 1 0 =
      fneg (ldtEntry [fun _ => some 0, fun _ => some 1] [[1], [0]] 1 0 0) :=
  c9_antisymmetry [fun _ => some 0, fun _ => some 1] [[1], [0]] 0 1
    (by simp) (by simp) 0

/-- `np.sign` on reals. -/
noncomputable def sgn (x : ℝ) : ℝ := if x < 0 then -1 else if 0 < x then 1 else 0

theorem fdist_self_not_pos (c : CoordV) : ¬ fgt0 (fdist c c) := by
  rcases h0 : c 0 with _ | a0 <;> rcases h1 : c 1 with _ | a1 <;>
    rcases h2 : c 2 with _ | a2 <;>
    simp [fdist, h0, h1, h2, fgt0, sub_self, Real.sqrt_zero]

/-- C5: under the `'pdb'` (experimental-structure) policy, a residue j is
in the neighbor list of residue i exactly when the pairwise distance is a
finite value strictly greater than 0 and at most the cutoff; and no
residue is ever its own neighbor, under either filtering policy. -/
theorem c5_neighbor_iff (coord : List CoordV) (plddt : List FVal)
    (cut minConf : ℝ) (i j : ℕ) (hj : j < coord.length) (hij : i ≠ j) :
    (j ∈ neighRowPdb coord cut i ↔
      ∃ x, fdist (coord.getD i nanCoord) (coord.getD j nanCoord) = some x ∧
        0 < x ∧ x ≤ cut) ∧
    i ∉ neighRowPdb coord cut i ∧
    i ∉ neighRowAf coord plddt cut minConf i := by
  classical
  refine ⟨?_, ?_, ?_⟩
  · rw [neighRowPdb, List.mem_filter, decide_eq_true_eq]
    constructor
    · rintro ⟨-, hc⟩
      rcases hc with ⟨hpos, hle, hfin⟩
      cases hd : fdist (coord.getD i nanCoord) (coord.getD j nanCoord) with
      | none => rw [hd] at hpos; exact absurd hpos (by simp [fgt0])
      | some x =>
        rw [hd] at hpos hle
        exact ⟨x, rfl, hpos, hle⟩
    · rintro ⟨x, hd, hpos, hle⟩
      exact ⟨List.mem_range.mpr hj, by rw [pdbCond, hd]; exact ⟨hpos, hle, trivial⟩⟩
  · intro hmem
    rw [neighRowPdb, List.mem_filter, decide_eq_true_eq] at hmem
    exact fdist_self_not_pos _ hmem.2.1
  · intro hmem
    rw [neighRowAf, List.mem_filter, decide_eq_true_eq] at hmem
    exact fdist_self_not_pos _ hmem.2.1

/-- Witness for C5 on a concrete two-residue structure. -/
theorem c5_neighbor_iff_witness :
    ((1 : ℕ) ∈ neighRowPdb [fun _ => some 0, fun t => if t = 0 then some 1 else some 0]
        (3 / 2) 0 ↔
      ∃ x, fdist (([fun _ => some 0, fun t => if t = 0 then some 1 else some 0] :
            List CoordV).getD 0 nanCoord)
          (([fun _ => some 0, fun t => if t = 0 then some 1 else some 0] :
            List CoordV).getD 1 nanCoord) = some x ∧ 0 < x ∧ x ≤ 3 / 2) ∧
    (0 : ℕ) ∉ neighRowPdb [fun _ => some 0, fun t => if t = 0 then some 1 else some 0]
        (3 / 2) 0 ∧
    (0 : ℕ) ∉ neighRowAf [fun _ => some 0, fun t => if t = 0 then some 1 else some 0]
        [some 90, some 90] (3 / 2) 70 0 :=
  c5_neighbor_iff [fun _ => some 0, fun t => if t = 0 then some 1 else some 0]
    [some 90, some 90] (3 / 2) 70 0 1 (by norm_num) (by norm_num)

/-- C6: `_rotate_points` forms `H = P.T @ Q`, takes an SVD
`H = U S Vᵀ`, and builds `R = V·diag(1,1,d)·Uᵀ` where the correction
`d = sign(det(V Uᵀ))` (the code stores `det(V Uᵀ)` itself, which equals
its own sign because the factors are orthogonal); `R` is a proper
rotation — orthogonal with determinant 1, never a reflection — and the
output is `R` applied to every row of `P`. -/
theorem c6_kabsch (o : SVDOracle) (P Q : List (Fin 3 → ℝ))
    (h : IsSVD (o (crossCov P Q)) (crossCov P Q)) :
    rotationOf o (crossCov P Q) =
      (o (crossCov P Q)).V *
        Matrix.diagonal
          ![1, 1, sgn ((o (crossCov P Q)).V * (o (crossCov P Q)).Uᵀ).det] *
        (o (crossCov P Q)).Uᵀ ∧
    rotationOf o (crossCov P Q) * (rotationOf o (crossCov P Q))ᵀ = 1 ∧
    (rotationOf o (crossCov P Q)).det = 1 ∧
    rotatePoints o P Q =
      P.map fun p => (rotationOf o (crossCov P Q)).mulVec p := by
  obtain ⟨hU, hV, -, -, -⟩ := h
  set U := (o (crossCov P Q)).U with hU_def
  set V := (o (crossCov P Q)).V with hV_def
  have hUtU : Uᵀ * U = 1 := Matrix.mul_eq_one_comm.mp hU
  have hdetU : U.det * U.det = 1 := by
    have h1 : (U * Uᵀ).det = 1 := by rw [hU, Matrix.det_one]
    rwa [Matrix.det_mul, Matrix.det_transpose] at h1
  have hdetV : V.det * V.det = 1 := by
    have h1 : (V * Vᵀ).det = 1 := by rw [hV, Matrix.det_one]
    rwa [Matrix.det_mul, Matrix.det_transpose] at h1
  set D := (V * Uᵀ).det with hD_def
  have hDval : D = V.det * U.det := by
    rw [hD_def, Matrix.det_mul, Matrix.det_transpose]
  have hD2 : D * D = 1 := by
    have : D * D = V.det * V.det * (U.det * U.det) := by rw [hDval]; ring
    rw [this, hdetU, hdetV, mul_one]
  have hDpm : D = 1 ∨ D = -1 := mul_self_eq_one_iff.mp hD2
  have hsgn : sgn D = D := by
    rcases hDpm with h1 | h1 <;> rw [h1] <;> norm_num [sgn]
  set E := (Matrix.diagonal ![1, 1, D] : Mat3) with hE_def
  have hEt : Eᵀ = E := by rw [hE_def, Matrix.diagonal_transpose]
  have hEE : E * E = 1 := by
    rw [hE_def, Matrix.diagonal_mul_diagonal]
    have hvec : (fun t => (![1, 1, D] : Fin 3 → ℝ) t * ![1, 1, D] t) =
        fun _ => (1 : ℝ) := by
      funext t
      fin_cases t <;>
        simp [Matrix.cons_val_zero, Matrix.cons_val_one, Matrix.head_cons] <;>
        exact hD2
    rw [hvec]
    exact Matrix.diagonal_one
  have hrot : rotationOf o (crossCov P Q) = V * E * Uᵀ := rfl
  refine ⟨?_, ?_, ?_, rfl⟩
  · rw [hrot, hE_def, hsgn]
  · rw [hrot, Matrix.transpose_mul, Matrix.transpose_mul,
      Matrix.transpose_transpose, hEt]
    calc V * E * Uᵀ * (U * (E * Vᵀ))
        = V * (E * ((Uᵀ * U) * (E * Vᵀ))) := by
          simp only [Matrix.mul_assoc]
      _ = V * (E * (E * Vᵀ)) := by rw [hUtU, Matrix.one_mul]
      _ = V * ((E * E) * Vᵀ) := by rw [Matrix.mul_assoc]
      _ = V * Vᵀ := by rw [hEE, Matrix.one_mul]
      _ = 1 := hV
  · rw [hrot, Matrix.det_mul, Matrix.det_mul, Matrix.det_transpose, hE_def,
      Matrix.det_diagonal]
    have hprod : (∏ t : Fin 3, (![1, 1, D] : Fin 3 → ℝ) t) = D := by
      rw [Fin.prod_univ_three]
      simp [Matrix.cons_val_zero, Matrix.cons_val_one, Matrix.head_cons]
    rw [hprod]
    have : V.det * D * U.det = D * D := by rw [hDval]; ring
    rw [this, hD2]

/-- The point list whose single row is the first standard basis vector. -/
noncomputable def e0P : List (Fin 3 → ℝ) := [fun t => if t = 0 then 1 else 0]

/-- An SVD oracle that is correct at `crossCov e0P e0P`. -/
noncomputable def e0Oracle : SVDOracle := fun _ => ⟨1, ![1, 0, 0], 1⟩

theorem e0_crossCov : crossCov e0P e0P = Matrix.diagonal ![1, 0, 0] := by
  funext a b
  fin_cases a <;> fin_cases b <;>
    simp [crossCov, e0P, Matrix.diagonal, Matrix.cons_val_zero,
      Matrix.cons_val_one, Matrix.head_cons]

theorem e0_isSVD : IsSVD (e0Oracle (crossCov e0P e0P)) (crossCov e0P e0P) := by
  refine ⟨?_, ?_, ?_, ?_, ?_⟩
  · simp [e0Oracle]
  · simp [e0Oracle]
  · rw [e0_crossCov]
    simp [e0Oracle]
  · intro t
    fin_cases t <;>
      norm_num [e0Oracle, Matrix.cons_val_zero, Matrix.cons_val_one,
        Matrix.head_cons]
  · intro t u htu
    fin_cases t <;> fin_cases u <;>
      simp_all [e0Oracle, Matrix.cons_val_zero, Matrix.cons_val_one,
        Matrix.head_cons] <;> norm_num

/-- Witness for C6 at a concrete point set and a concrete valid SVD. -/
theorem c6_kabsch_witness :
    rotationOf e0Oracle (crossCov e0P e0P) *
        (rotationOf e0Oracle (crossCov e0P e0P))ᵀ = 1 ∧
    (rotationOf e0Oracle (crossCov e0P e0P)).det = 1 ∧
    rotatePoints e0Oracle e0P e0P =
      e0P.map fun p => (rotationOf e0Oracle (crossCov e0P e0P)).mulVec p :=
  ⟨(c6_kabsch e0Oracle e0P e0P e0_isSVD).2.1,
    (c6_kabsch e0Oracle e0P e0P e0_isSVD).2.2.1,
    (c6_kabsch e0Oracle e0P e0P e0_isSVD).2.2.2⟩

/-! Concrete evaluation toolkit used by the witnesses and
counterexamples below. -/

/-- A concrete all-finite coordinate. -/
noncomputable def cv (a0 a1 a2 : ℝ) : CoordV := fun t => some (![a0, a1, a2] t)

theorem fdist_cv (a0 a1 a2 b0 b1 b2 : ℝ) :
    fdist (cv a0 a1 a2) (cv b0 b1 b2) =
      some (Real.sqrt ((a0 - b0) ^ 2 + (a1 - b1) ^ 2 + (a2 - b2) ^ 2)) := rfl

theorem fdist_nan_right (a : CoordV) : fdist a nanCoord = none := by
  rcases h0 : a 0 with _ | a0 <;> rcases h1 : a 1 with _ | a1 <;>
    rcases h2 : a 2 with _ | a2 <;> simp [fdist, h0, h1, h2, nanCoord]

theorem fdist_nan_left (b : CoordV) : fdist nanCoord b = none := by
  rcases h0 : b 0 with _ | b0 <;> rcases h1 : b 1 with _ | b1 <;>
    rcases h2 : b 2 with _ | b2 <;> simp [fdist, h0, h1, h2, nanCoord]

theorem pdbCond_none (cut : ℝ) : ¬ pdbCond none cut := by
  simp [pdbCond, fgt0]

theorem pdbCond_cv (a0 a1 a2 b0 b1 b2 cut : ℝ) (hcut : 0 ≤ cut) :
    pdbCond (fdist (cv a0 a1 a2) (cv b0 b1 b2)) cut ↔
      0 < (a0 - b0) ^ 2 + (a1 - b1) ^ 2 + (a2 - b2) ^ 2 ∧
        (a0 - b0) ^ 2 + (a1 - b1) ^ 2 + (a2 - b2) ^ 2 ≤ cut ^ 2 := by
  rw [fdist_cv]
  simp only [pdbCond, fgt0, fle, ffinite, and_true]
  rw [Real.sqrt_pos, Real.sqrt_le_left hcut]

/-- The three-residue unit chain `(0,0,0), (1,0,0), (2,0,0)` of the
concrete scenarios, with cutoff 3/2 under the `'pdb'` policy. -/
noncomputable def chain3 : List CoordV := [cv 0 0 0, cv 1 0 0, cv 2 0 0]

theorem chain3_row0 : neighRowPdb chain3 (3 / 2) 0 = [1] := by
  classical
  have e : neighRowPdb chain3 (3 / 2) 0 =
      [0, 1, 2].filter fun j =>
        decide (pdbCond (fdist (chain3.getD 0 nanCoord)
          (chain3.getD j nanCoord)) (3 / 2)) := rfl
  have h0 : ¬ pdbCond (fdist (chain3.getD 0 nanCoord)
      (chain3.getD 0 nanCoord)) (3 / 2) := fun hc => fdist_self_not_pos _ hc.1
  have h1 : pdbCond (fdist (chain3.getD 0 nanCoord)
      (chain3.getD 1 nanCoord)) (3 / 2) := by
    rw [show chain3.getD 0 nanCoord = cv 0 0 0 from rfl,
      show chain3.getD 1 nanCoord = cv 1 0 0 from rfl,
      pdbCond_cv _ _ _ _ _ _ _ (by norm_num)]
    norm_num
  have h2 : ¬ pdbCond (fdist (chain3.getD 0 nanCoord)
      (chain3.getD 2 nanCoord)) (3 / 2) := by
    rw [show chain3.getD 0 nanCoord = cv 0 0 0 from rfl,
      show chain3.getD 2 nanCoord = cv 2 0 0 from rfl,
      pdbCond_cv _ _ _ _ _ _ _ (by norm_num)]
    norm_num
  rw [e, List.filter_cons, List.filter_cons, List.filter_cons, List.filter_nil,
    decide_eq_false h0, decide_eq_true h1, decide_eq_false h2]
  simp

theorem chain3_row1 : neighRowPdb chain3 (3 / 2) 1 = [0, 2] := by
  classical
  have e : neighRowPdb chain3 (3 / 2) 1 =
      [0, 1, 2].filter fun j =>
        decide (pdbCond (fdist (chain3.getD 1 nanCoord)
          (chain3.getD j nanCoord)) (3 / 2)) := rfl
  have h0 : pdbCond (fdist (chain3.getD 1 nanCoord)
      (chain3.getD 0 nanCoord)) (3 / 2) := by
    rw [show chain3.getD 1 nanCoord = cv 1 0 0 from rfl,
      show chain3.getD 0 nanCoord = cv 0 0 0 from rfl,
      pdbCond_cv _ _ _ _ _ _ _ (by norm_num)]
    norm_num
  have h1 : ¬ pdbCond (fdist (chain3.getD 1 nanCoord)
      (chain3.getD 1 nanCoord)) (3 / 2) := fun hc => fdist_self_not_pos _ hc.1
  have h2 : pdbCond (fdist (chain3.getD 1 nanCoord)
      (chain3.getD 2 nanCoord)) (3 / 2) := by
    rw [show chain3.getD 1 nanCoord = cv 1 0 0 from rfl,
      show chain3.getD 2 nanCoord = cv 2 0 0 from rfl,
      pdbCond_cv _ _ _ _ _ _ _ (by norm_num)]
    norm_num
  rw [e, List.filter_cons, List.filter_cons, List.filter_cons, List.filter_nil,
    decide_eq_true h0, decide_eq_false h1, decide_eq_true h2]
  simp

theorem chain3_row2 : neighRowPdb chain3 (3 / 2) 2 = [1] := by
  classical
  have e : neighRowPdb chain3 (3 / 2) 2 =
      [0, 1, 2].filter fun j =>
        decide (pdbCond (fdist (chain3.getD 2 nanCoord)
          (chain3.getD j nanCoord)) (3 / 2)) := rfl
  have h0 : ¬ pdbCond (fdist (chain3.getD 2 nanCoord)
      (chain3.getD 0 nanCoord)) (3 / 2) := by
    rw [show chain3.getD 2 nanCoord = cv 2 0 0 from rfl,
      show chain3.getD 0 nanCoord = cv 0 0 0 from rfl,
      pdbCond_cv _ _ _ _ _ _ _ (by norm_num)]
    norm_num
  have h1 : pdbCond (fdist (chain3.getD 2 nanCoord)
      (chain3.getD 1 nanCoord)) (3 / 2) := by
    rw [show chain3.getD 2 nanCoord = cv 2 0 0 from rfl,
      show chain3.getD 1 nanCoord = cv 1 0 0 from rfl,
      pdbCond_cv _ _ _ _ _ _ _ (by norm_num)]
    norm_num
  have h2 : ¬ pdbCond (fdist (chain3.getD 2 nanCoord)
      (chain3.getD 2 nanCoord)) (3 / 2) := fun hc => fdist_self_not_pos _ hc.1
  rw [e, List.filter_cons, List.filter_cons, List.filter_cons, List.filter_nil,
    decide_eq_false h0, decide_eq_true h1, decide_eq_false h2]
  simp

theorem chain3_nidx :
    getLocalNeighborhoodK Kind.pdb chain3 [] (3 / 2) 0 = [[1], [0, 2], [1]] := by
  have e : getLocalNeighborhoodK Kind.pdb chain3 [] (3 / 2) 0 =
      [neighRowPdb chain3 (3 / 2) 0, neighRowPdb chain3 (3 / 2) 1,
        neighRowPdb chain3 (3 / 2) 2] := rfl
  rw [e, chain3_row0, chain3_row1, chain3_row2]

/-- The 3-chain structure after `get_local_neighborhood` + `_get_ldt`. -/
noncomputable def chain3Prot : DefProt := deriveDefProt Kind.pdb chain3 [] (3 / 2) 0

/-- The same structure with its neighbor lists written out. -/
noncomputable def chain3ProtL : DefProt :=
  ⟨[[1], [0, 2], [1]], getLdt chain3 [[1], [0, 2], [1]]⟩

theorem chain3Prot_eq : chain3Prot = chain3ProtL := by
  rw [show chain3Prot =
      (⟨getLocalNeighborhoodK Kind.pdb chain3 [] (3 / 2) 0,
        getLdt chain3 (getLocalNeighborhoodK Kind.pdb chain3 [] (3 / 2) 0)⟩ :
        DefProt) from rfl, chain3_nidx]
  rfl

/-- The zero 3-vector stored by `np.zeros` at non-neighbor entries. -/
noncomputable def zRow : Fin 3 → FVal := fun _ => some 0

theorem chain3_prologue0 : resPrologue chain3ProtL chain3ProtL 0 =
    Except.ok (some ⟨[0], [zRow], [zRow]⟩) := rfl

theorem fnorm3_zRow : fnorm3 zRow = some 0 := by
  show some (Real.sqrt ((0 : ℝ) ^ 2 + 0 ^ 2 + 0 ^ 2)) = some 0
  norm_num

theorem chain3_lddt0 : lddtRes chain3ProtL chain3ProtL [] 0 = Except.ok (some 1) := by
  classical
  have step : lddtRes chain3ProtL chain3ProtL [] 0 =
      Except.ok (some
        ((defaultBins.map fun cut =>
            (([fsub (fnorm3 zRow) (fnorm3 zRow)].filter fun x =>
                decide (fle x cut)).length : ℝ)).sum
          / (4 * ([fsub (fnorm3 zRow) (fnorm3 zRow)] : List FVal).length))) := rfl
  rw [step, fnorm3_zRow, show fsub (some (0 : ℝ)) (some (0 : ℝ)) = some 0 by
    simp [fsub]]
  have hfilter : ∀ c : ℝ, 0 ≤ c →
      ([some (0 : ℝ)].filter fun x => decide (fle x c)) = [some 0] := by
    intro c hc
    rw [List.filter_cons, decide_eq_true (show fle (some (0 : ℝ)) c from hc)]
    rfl
  rw [defaultBins, List.map_cons, List.map_cons, List.map_cons, List.map_cons,
    List.map_nil, hfilter 0.5 (by norm_num), hfilter 1 (by norm_num),
    hfilter 2 (by norm_num), hfilter 4 (by norm_num)]
  norm_num

theorem chain3_ldd0 (nf : Bool) :
    lddRes chain3ProtL chain3ProtL nf 0 = Except.ok (some 0) := by
  classical
  have step : lddRes chain3ProtL chain3ProtL nf 0 =
      Except.ok (if nf = true then
          fdivNat (fnormList [fsub (fnorm3 zRow) (fnorm3 zRow)]) 1
        else fnormList [fsub (fnorm3 zRow) (fnorm3 zRow)]) := rfl
  rw [step, fnorm3_zRow, show fsub (some (0 : ℝ)) (some (0 : ℝ)) = some 0 by
    simp [fsub]]
  have hn : fnormList [some (0 : ℝ)] = some 0 := by
    simp [fnormList]
  rw [hn]
  cases nf <;> simp [fdivNat]

/-- The extracted real row corresponding to `zRow`. -/
noncomputable def zReal : Fin 3 → ℝ := fun t => ((zRow t).getD 0)

theorem zReal_eq_zero : zReal = 0 := rfl

theorem chain3_ntd0 (o : SVDOracle) (nf : Bool) :
    ntdRes o chain3ProtL chain3ProtL nf 0 = Except.ok (some 0) := by
  classical
  have step : ntdRes o chain3ProtL chain3ProtL nf 0 =
      Except.ok (some (if nf = true then
          frobNorm [fun t =>
            (rotationOf o (crossCov [zReal] [zReal])).mulVec zReal t - zReal t]
            / ((1 : ℕ) : ℝ)
        else frobNorm [fun t =>
          (rotationOf o (crossCov [zReal] [zReal])).mulVec zReal t -
            zReal t])) := rfl
  rw [step, zReal_eq_zero, Matrix.mulVec_zero]
  have hfr : frobNorm [fun t => (0 : Fin 3 → ℝ) t - (0 : Fin 3 → ℝ) t] = 0 := by
    simp [frobNorm]
  rw [hfr]
  cases nf <;> norm_num

theorem chain3_strain0 (o : SVDOracle) (nf : Bool) :
    strainRes o chain3ProtL chain3ProtL nf 0 = Except.ok none := by
  classical
  have step : strainRes o chain3ProtL chain3ProtL nf 0 =
      Except.ok (if nf = true then
          fdivNat (List.foldl fadd (some 0)
            [sdiv (rownorm fun t =>
                (rotationOf o (crossCov [zReal] [zReal])).mulVec zReal t -
                  zReal t)
              (rownorm zReal)]) 1
        else List.foldl fadd (some 0)
          [sdiv (rownorm fun t =>
              (rotationOf o (crossCov [zReal] [zReal])).mulVec zReal t -
                zReal t)
            (rownorm zReal)]) := rfl
  have hzn : rownorm zReal = 0 := by
    rw [zReal_eq_zero]
    simp [rownorm]
  rw [step, hzn, sdiv]
  rw [if_pos rfl]
  have hfold : List.foldl fadd (some (0 : ℝ)) [none] = none := rfl
  rw [hfold]
  cases nf <;> simp [fdivNat]

/-- C1 (evaluation of the code at the failing input): comparing the
derived 3-residue unit chain against itself, residue 0 has exactly one
shared neighbor, and lddt is 1, ldd is 0, ntd is 0 — but strain is NaN,
not 0.  `neigh_tensor[i][i1]` selects rows of the dense `(l, 3)` tensor
by neighbor-list *position*, so for residue 0 position 0 fetches the
zero vector stored at `dist[0,0]` instead of the displacement to
neighbor 1, and the strain term divides by a zero norm. -/
theorem c1_self_comparison_eval (o : SVDOracle) (nf : Bool) :
    sharedPos (chain3Prot.nidx.getD 0 []) (chain3Prot.nidx.getD 0 []) = [0] ∧
    lddtRes chain3Prot chain3Prot [] 0 = Except.ok (some 1) ∧
    lddRes chain3Prot chain3Prot nf 0 = Except.ok (some 0) ∧
    ntdRes o chain3Prot chain3Prot nf 0 = Except.ok (some 0) ∧
    strainRes o chain3Prot chain3Prot nf 0 = Except.ok none := by
  rw [chain3Prot_eq]
  exact ⟨rfl, chain3_lddt0, chain3_ldd0 nf, chain3_ntd0 o nf,
    chain3_strain0 o nf⟩

/-- C8 counterexample: on the derived 3-residue chain, residue 2 is not
a neighbor of residue 0 (distance 2 exceeds the cutoff 3/2), yet the
derived tensor holds a defined entry — the zero vector — at `(0, 2)`:
non-neighbor entries are implicitly zero-filled, not absent. -/
theorem c8_counterexample :
    (2 : ℕ) ∉ chain3Prot.nidx.getD 0 [] ∧
    (chain3Prot.tensor.getD 0 []).getD 2 (fun _ => none) = fun _ => some 0 := by
  rw [chain3Prot_eq]
  exact ⟨by decide, rfl⟩

/-- C8 amended: in the dense tensor built by `Protein._get_ldt`, entries
for non-neighbor pairs are present and hold the zero vector left by the
`np.zeros` initialisation — they are not absent — while entries for
neighbor pairs hold the displacement `coord[i] - coord[j]`. -/
theorem c8_amended (coord : List CoordV) (nidx : List (List ℕ)) (i j : ℕ)
    (hi : i < coord.length) (hj : j < coord.length) :
    (j ∉ nidx.getD i [] →
      ((getLdt coord nidx).getD i []).getD j (fun _ => none) =
        fun _ => some 0) ∧
    (j ∈ nidx.getD i [] →
      ((getLdt coord nidx).getD i []).getD j (fun _ => none) =
        fun t => fsub (coord.getD i nanCoord t) (coord.getD j nanCoord t)) := by
  rw [getLdt, getD_range_map _ hi, getD_range_map _ hj]
  constructor
  · intro h
    rw [ldtEntry, if_neg h]
  · intro h
    rw [ldtEntry, if_pos h]

/-- Witness for the amended C8 on the concrete 3-chain: the non-neighbor
entry (0,2) is the zero vector and the neighbor entry (0,1) is the
displacement. -/
theorem c8_amended_witness :
    ((getLdt chain3 [[1], [0, 2], [1]]).getD 0 []).getD 2 (fun _ => none) =
      (fun _ => some 0) ∧
    ((getLdt chain3 [[1], [0, 2], [1]]).getD 0 []).getD 1 (fun _ => none) =
      fun t => fsub (chain3.getD 0 nanCoord t) (chain3.getD 1 nanCoord t) :=
  ⟨(c8_amended chain3 [[1], [0, 2], [1]] 0 2 (by simp [chain3])
        (by simp [chain3])).1 (by decide),
    (c8_amended chain3 [[1], [0, 2], [1]] 0 1 (by simp [chain3])
        (by simp [chain3])).2 (by decide)⟩

theorem geterr_ok {α : Type} (xs : List α) (i : ℕ) (h : i < xs.length) (d : α) :
    geterr xs i = Except.ok (xs.getD i d) := by
  have h1 : xs.get? i = some xs[i] := by
    rw [List.get?_eq_getElem?, List.getElem?_eq_getElem h]
  have h2 : xs.getD i d = xs[i] := by
    rw [List.getD_eq_getElem?_getD, List.getElem?_eq_getElem h]
    rfl
  rw [geterr, h1, h2]

theorem geterr_err {α : Type} (xs : List α) (i : ℕ) (h : xs.length ≤ i) :
    geterr xs i = Except.error () := by
  have h1 : xs.get? i = none := List.get?_eq_none.mpr h
  rw [geterr, h1]

theorem resPrologue_none (p1 p2 : DefProt) (i : ℕ)
    (ht1 : i < p1.tensor.length) (ht2 : i < p2.tensor.length)
    (hn1 : i < p1.nidx.length) (hn2 : i < p2.nidx.length)
    (hshared :
      sharedPos (p1.nidx.getD i []) (p2.nidx.getD i []) = [] ∨
      (p1.tensor.getD i []).length = 0 ∨ (p2.tensor.getD i []).length = 0) :
    resPrologue p1 p2 i = Except.ok none := by
  rw [resPrologue]
  simp only [geterr_ok p1.tensor i ht1 ([] : List (Fin 3 → FVal)), bind_ok,
    geterr_ok p2.tensor i ht2 ([] : List (Fin 3 → FVal))]
  by_cases hg : (p1.tensor.getD i []).length = 0 ∨ (p2.tensor.getD i []).length = 0
  · rw [if_pos hg]
    rfl
  · rw [if_neg hg]
    simp only [geterr_ok p1.nidx i hn1 ([] : List ℕ), bind_ok,
      geterr_ok p2.nidx i hn2 ([] : List ℕ)]
    rcases hshared with hs | h1 | h2
    · rw [hs]
      rfl
    · exact absurd (Or.inl h1) hg
    · exact absurd (Or.inr h2) hg

/-- C3: if a residue has no tensor data on either side or no shared
neighbors — which is the situation of a residue with a NaN coordinate,
whose neighbor sets are empty — then all five per-residue metrics are
NaN (`ok none`, not an error), and the per-residue loop still assembles
the whole array from the per-residue values whenever every residue
evaluates without an index error. -/
theorem c3_missing_data_nan (p1 p2 : DefProt) (i : ℕ) (bins : List ℝ)
    (nf : Bool) (o : SVDOracle)
    (ht1 : i < p1.tensor.length) (ht2 : i < p2.tensor.length)
    (hn1 : i < p1.nidx.length) (hn2 : i < p2.nidx.length)
    (hshared :
      sharedPos (p1.nidx.getD i []) (p2.nidx.getD i []) = [] ∨
      (p1.tensor.getD i []).length = 0 ∨ (p2.tensor.getD i []).length = 0) :
    (lddtRes p1 p2 bins i = Except.ok none ∧
     lddRes p1 p2 nf i = Except.ok none ∧
     ntdRes o p1 p2 nf i = Except.ok none ∧
     shearRes p1 p2 i = Except.ok none ∧
     strainRes o p1 p2 nf i = Except.ok none) ∧
    (∀ g : ℕ → FVal,
      (∀ j ∈ List.range p1.tensor.length,
        lddtRes p1 p2 bins j = Except.ok (g j)) →
      lddtArr p1 p2 bins = Except.ok ((List.range p1.tensor.length).map g)) := by
  have hpro := resPrologue_none p1 p2 i ht1 ht2 hn1 hn2 hshared
  refine ⟨⟨?_, ?_, ?_, ?_, ?_⟩, ?_⟩
  · rw [lddtRes, hpro]
    rfl
  · rw [lddRes, hpro]
    rfl
  · rw [ntdRes, hpro]
    rfl
  · rw [shearRes, hpro]
    rfl
  · rw [strainRes, hpro]
    rfl
  · intro g hg
    exact mapM_ok_of_forall _ g _ hg

/-- The chain with residue 2 missing (all-NaN coordinate). -/
noncomputable def nanChain : List CoordV := [cv 0 0 0, cv 1 0 0, nanCoord]

/-- The NaN chain after derivation. -/
noncomputable def nanProt : DefProt := deriveDefProt Kind.pdb nanChain [] (3 / 2) 0

theorem nanChain_row2 : neighRowPdb nanChain (3 / 2) 2 = [] := by
  classical
  have e : neighRowPdb nanChain (3 / 2) 2 =
      [0, 1, 2].filter fun j =>
        decide (pdbCond (fdist (nanChain.getD 2 nanCoord)
          (nanChain.getD j nanCoord)) (3 / 2)) := rfl
  have h : ∀ j : ℕ, ¬ pdbCond (fdist (nanChain.getD 2 nanCoord)
      (nanChain.getD j nanCoord)) (3 / 2) := by
    intro j
    rw [show nanChain.getD 2 nanCoord = nanCoord from rfl, fdist_nan_left]
    exact pdbCond_none _
  rw [e, List.filter_cons, List.filter_cons, List.filter_cons, List.filter_nil,
    decide_eq_false (h 0), decide_eq_false (h 1), decide_eq_false (h 2)]
  rfl

/-- Witness for C3: comparing the NaN chain to itself, all five metrics
at the NaN residue 2 are NaN. -/
theorem c3_missing_data_nan_witness :
    lddtRes nanProt nanProt [] 2 = Except.ok none ∧
    lddRes nanProt nanProt false 2 = Except.ok none ∧
    ntdRes e0Oracle nanProt nanProt false 2 = Except.ok none ∧
    shearRes nanProt nanProt 2 = Except.ok none ∧
    strainRes e0Oracle nanProt nanProt false 2 = Except.ok none :=
  (c3_missing_data_nan nanProt nanProt 2 [] false e0Oracle
    (by show (2 : ℕ) < 3; norm_num) (by show (2 : ℕ) < 3; norm_num)
    (by show (2 : ℕ) < 3; norm_num) (by show (2 : ℕ) < 3; norm_num)
    (Or.inl (by
      rw [show nanProt.nidx.getD 2 [] = neighRowPdb nanChain (3 / 2) 2 from rfl,
        nanChain_row2]
      rfl))).1

/-- A derived two-residue structure. -/
noncomputable def pair2 : List CoordV := [cv 0 0 0, cv 1 0 0]

theorem pair2_row0 : neighRowPdb pair2 (3 / 2) 0 = [1] := by
  classical
  have e : neighRowPdb pair2 (3 / 2) 0 =
      [0, 1].filter fun j =>
        decide (pdbCond (fdist (pair2.getD 0 nanCoord)
          (pair2.getD j nanCoord)) (3 / 2)) := rfl
  have h0 : ¬ pdbCond (fdist (pair2.getD 0 nanCoord)
      (pair2.getD 0 nanCoord)) (3 / 2) := fun hc => fdist_self_not_pos _ hc.1
  have h1 : pdbCond (fdist (pair2.getD 0 nanCoord)
      (pair2.getD 1 nanCoord)) (3 / 2) := by
    rw [show pair2.getD 0 nanCoord = cv 0 0 0 from rfl,
      show pair2.getD 1 nanCoord = cv 1 0 0 from rfl,
      pdbCond_cv _ _ _ _ _ _ _ (by norm_num)]
    norm_num
  rw [e, List.filter_cons, List.filter_cons, List.filter_nil,
    decide_eq_false h0, decide_eq_true h1]
  rfl

theorem pair2_row1 : neighRowPdb pair2 (3 / 2) 1 = [0] := by
  classical
  have e : neighRowPdb pair2 (3 / 2) 1 =
      [0, 1].filter fun j =>
        decide (pdbCond (fdist (pair2.getD 1 nanCoord)
          (pair2.getD j nanCoord)) (3 / 2)) := rfl
  have h0 : pdbCond (fdist (pair2.getD 1 nanCoord)
      (pair2.getD 0 nanCoord)) (3 / 2) := by
    rw [show pair2.getD 1 nanCoord = cv 1 0 0 from rfl,
      show pair2.getD 0 nanCoord = cv 0 0 0 from rfl,
      pdbCond_cv _ _ _ _ _ _ _ (by norm_num)]
    norm_num
  have h1 : ¬ pdbCond (fdist (pair2.getD 1 nanCoord)
      (pair2.getD 1 nanCoord)) (3 / 2) := fun hc => fdist_self_not_pos _ hc.1
  rw [e, List.filter_cons, List.filter_cons, List.filter_nil,
    decide_eq_true h0, decide_eq_false h1]
  rfl

/-- `pair2` after derivation. -/
noncomputable def pair2Prot : DefProt := deriveDefProt Kind.pdb pair2 [] (3 / 2) 0

/-- The same structure with neighbor lists written out. -/
noncomputable def pair2ProtL : DefProt := ⟨[[1], [0]], getLdt pair2 [[1], [0]]⟩

theorem pair2Prot_eq : pair2Prot = pair2ProtL := by
  rw [show pair2Prot =
      (⟨getLocalNeighborhoodK Kind.pdb pair2 [] (3 / 2) 0,
        getLdt pair2 (getLocalNeighborhoodK Kind.pdb pair2 [] (3 / 2) 0)⟩ :
        DefProt) from rfl,
    show getLocalNeighborhoodK Kind.pdb pair2 [] (3 / 2) 0 =
      [neighRowPdb pair2 (3 / 2) 0, neighRowPdb pair2 (3 / 2) 1] from rfl,
    pair2_row0, pair2_row1]
  rfl

/-- A derived single-residue structure. -/
noncomputable def single1 : List CoordV := [cv 0 0 0]

theorem single1_row0 : neighRowPdb single1 (3 / 2) 0 = [] := by
  classical
  have e : neighRowPdb single1 (3 / 2) 0 =
      [0].filter fun j =>
        decide (pdbCond (fdist (single1.getD 0 nanCoord)
          (single1.getD j nanCoord)) (3 / 2)) := rfl
  have h0 : ¬ pdbCond (fdist (single1.getD 0 nanCoord)
      (single1.getD 0 nanCoord)) (3 / 2) := fun hc => fdist_self_not_pos _ hc.1
  rw [e, List.filter_cons, List.filter_nil, decide_eq_false h0]
  rfl

/-- `single1` after derivation. -/
noncomputable def single1Prot : DefProt :=
  deriveDefProt Kind.pdb single1 [] (3 / 2) 0

/-- The same structure with neighbor lists written out. -/
noncomputable def single1ProtL : DefProt := ⟨[[]], getLdt single1 [[]]⟩

theorem single1Prot_eq : single1Prot = single1ProtL := by
  rw [show single1Prot =
      (⟨getLocalNeighborhoodK Kind.pdb single1 [] (3 / 2) 0,
        getLdt single1 (getLocalNeighborhoodK Kind.pdb single1 [] (3 / 2) 0)⟩ :
        DefProt) from rfl,
    show getLocalNeighborhoodK Kind.pdb single1 [] (3 / 2) 0 =
      [neighRowPdb single1 (3 / 2) 0] from rfl, single1_row0]
  rfl

/-- C4 counterexample: constructing a `Deformation` from a 2-residue and
a 1-residue structure raises nothing — the constructor stores them
unchanged — and the lddt loop then computes residue 0 (yielding NaN for
no shared neighbors) before dying with an index error at residue 1.
The mismatch is therefore not rejected before per-residue computation. -/
theorem c4_counterexample :
    deformationInit pair2Prot single1Prot = ⟨pair2Prot, single1Prot⟩ ∧
    lddtRes pair2Prot single1Prot [] 0 = Except.ok none ∧
    lddtArr pair2Prot single1Prot [] = Except.error () := by
  rw [pair2Prot_eq, single1Prot_eq]
  exact ⟨rfl, rfl, rfl⟩

/-- C4 amended: no fail-fast validation exists.  `Deformation.__init__`
accepts structures of mismatched lengths unchanged, and when the second
structure is shorter the mismatch only surfaces as an index error raised
inside the per-residue loop (at the first out-of-range residue), after
the earlier residues have been processed. -/
theorem c4_amended (p1 p2 : DefProt) (bins : List ℝ)
    (h : p2.tensor.length < p1.tensor.length) :
    deformationInit p1 p2 = ⟨p1, p2⟩ ∧
    lddtArr p1 p2 bins = Except.error () := by
  refine ⟨rfl, ?_⟩
  apply mapM_err_of_mem
  refine ⟨p2.tensor.length, List.mem_range.mpr h, ?_⟩
  have hpro : resPrologue p1 p2 p2.tensor.length = Except.error () := by
    rw [resPrologue]
    simp only [geterr_ok p1.tensor p2.tensor.length h
        ([] : List (Fin 3 → FVal)), bind_ok,
      geterr_err p2.tensor p2.tensor.length (le_refl _), bind_err]
  rw [lddtRes, hpro]
  rfl

/-- Witness for the amended C4 at the concrete 2- and 1-residue
structures. -/
theorem c4_amended_witness :
    deformationInit pair2Prot single1Prot = ⟨pair2Prot, single1Prot⟩ ∧
    lddtArr pair2Prot single1Prot [] = Except.error () :=
  c4_amended pair2Prot single1Prot [] (by show (1 : ℕ) < 2; norm_num)

/-- Structure A of the lddt comparison: residue 1 sits 5 Å from
residue 0. -/
noncomputable def protA : List CoordV := [cv 0 0 0, cv 3 4 0]

/-- Structure B: residue 1 sits 0.5 Å from residue 0, so the neighbor
distance shrinks by 4.5 Å between A and B. -/
noncomputable def protB : List CoordV := [cv 0 0 0, cv 0.3 0.4 0]

theorem protA_row0 : neighRowPdb protA 6 0 = [1] := by
  classical
  have e : neighRowPdb protA 6 0 =
      [0, 1].filter fun j =>
        decide (pdbCond (fdist (protA.getD 0 nanCoord)
          (protA.getD j nanCoord)) 6) := rfl
  have h0 : ¬ pdbCond (fdist (protA.getD 0 nanCoord)
      (protA.getD 0 nanCoord)) 6 := fun hc => fdist_self_not_pos _ hc.1
  have h1 : pdbCond (fdist (protA.getD 0 nanCoord)
      (protA.getD 1 nanCoord)) 6 := by
    rw [show protA.getD 0 nanCoord = cv 0 0 0 from rfl,
      show protA.getD 1 nanCoord = cv 3 4 0 from rfl,
      pdbCond_cv _ _ _ _ _ _ _ (by norm_num)]
    norm_num
  rw [e, List.filter_cons, List.filter_cons, List.filter_nil,
    decide_eq_false h0, decide_eq_true h1]
  rfl

theorem protA_row1 : neighRowPdb protA 6 1 = [0] := by
  classical
  have e : neighRowPdb protA 6 1 =
      [0, 1].filter fun j =>
        decide (pdbCond (fdist (protA.getD 1 nanCoord)
          (protA.getD j nanCoord)) 6) := rfl
  have h0 : pdbCond (fdist (protA.getD 1 nanCoord)
      (protA.getD 0 nanCoord)) 6 := by
    rw [show protA.getD 1 nanCoord = cv 3 4 0 from rfl,
      show protA.getD 0 nanCoord = cv 0 0 0 from rfl,
      pdbCond_cv _ _ _ _ _ _ _ (by norm_num)]
    norm_num
  have h1 : ¬ pdbCond (fdist (protA.getD 1 nanCoord)
      (protA.getD 1 nanCoord)) 6 := fun hc => fdist_self_not_pos _ hc.1
  rw [e, List.filter_cons, List.filter_cons, List.filter_nil,
    decide_eq_true h0, decide_eq_false h1]
  rfl

theorem protB_row0 : neighRowPdb protB 6 0 = [1] := by
  classical
  have e : neighRowPdb protB 6 0 =
      [0, 1].filter fun j =>
        decide (pdbCond (fdist (protB.getD 0 nanCoord)
          (protB.getD j nanCoord)) 6) := rfl
  have h0 : ¬ pdbCond (fdist (protB.getD 0 nanCoord)
      (protB.getD 0 nanCoord)) 6 := fun hc => fdist_self_not_pos _ hc.1
  have h1 : pdbCond (fdist (protB.getD 0 nanCoord)
      (protB.getD 1 nanCoord)) 6 := by
    rw [show protB.getD 0 nanCoord = cv 0 0 0 from rfl,
      show protB.getD 1 nanCoord = cv 0.3 0.4 0 from rfl,
      pdbCond_cv _ _ _ _ _ _ _ (by norm_num)]
    norm_num
  rw [e, List.filter_cons, List.filter_cons, List.filter_nil,
    decide_eq_false h0, decide_eq_true h1]
  rfl

theorem protB_row1 : neighRowPdb protB 6 1 = [0] := by
  classical
  have e : neighRowPdb protB 6 1 =
      [0, 1].filter fun j =>
        decide (pdbCond (fdist (protB.getD 1 nanCoord)
          (protB.getD j nanCoord)) 6) := rfl
  have h0 : pdbCond (fdist (protB.getD 1 nanCoord)
      (protB.getD 0 nanCoord)) 6 := by
    rw [show protB.getD 1 nanCoord = cv 0.3 0.4 0 from rfl,
      show protB.getD 0 nanCoord = cv 0 0 0 from rfl,
      pdbCond_cv _ _ _ _ _ _ _ (by norm_num)]
    norm_num
  have h1 : ¬ pdbCond (fdist (protB.getD 1 nanCoord)
      (protB.getD 1 nanCoord)) 6 := fun hc => fdist_self_not_pos _ hc.1
  rw [e, List.filter_cons, List.filter_cons, List.filter_nil,
    decide_eq_true h0, decide_eq_false h1]
  rfl

/-- `protA` after derivation with cutoff 6. -/
noncomputable def protAD : DefProt := deriveDefProt Kind.pdb protA [] 6 0

/-- `protA` with neighbor lists written out. -/
noncomputable def protADL : DefProt := ⟨[[1], [0]], getLdt protA [[1], [0]]⟩

theorem protAD_eq : protAD = protADL := by
  rw [show protAD =
      (⟨getLocalNeighborhoodK Kind.pdb protA [] 6 0,
        getLdt protA (getLocalNeighborhoodK Kind.pdb protA [] 6 0)⟩ :
        DefProt) from rfl,
    show getLocalNeighborhoodK Kind.pdb protA [] 6 0 =
      [neighRowPdb protA 6 0, neighRowPdb protA 6 1] from rfl,
    protA_row0, protA_row1]
  rfl

/-- `protB` after derivation with cutoff 6. -/
noncomputable def protBD : DefProt := deriveDefProt Kind.pdb protB [] 6 0

/-- `protB` with neighbor lists written out. -/
noncomputable def protBDL : DefProt := ⟨[[1], [0]], getLdt protB [[1], [0]]⟩

theorem protBD_eq : protBD = protBDL := by
  rw [show protBD =
      (⟨getLocalNeighborhoodK Kind.pdb protB [] 6 0,
        getLdt protB (getLocalNeighborhoodK Kind.pdb protB [] 6 0)⟩ :
        DefProt) from rfl,
    show getLocalNeighborhoodK Kind.pdb protB [] 6 0 =
      [neighRowPdb protB 6 0, neighRowPdb protB 6 1] from rfl,
    protB_row0, protB_row1]
  rfl

/-- The displacement of residue 1 towards residue 0 in structure A. -/
noncomputable def dispA : Fin 3 → FVal := fun t => fsub (cv 3 4 0 t) (cv 0 0 0 t)

/-- The displacement of residue 1 towards residue 0 in structure B. -/
noncomputable def dispB : Fin 3 → FVal :=
  fun t => fsub (cv 0.3 0.4 0 t) (cv 0 0 0 t)

theorem fnorm3_dispA : fnorm3 dispA = some 5 := by
  rw [show fnorm3 dispA = some (Real.sqrt (((3 : ℝ) - 0) ^ 2 +
      ((4 : ℝ) - 0) ^ 2 + ((0 : ℝ) - 0) ^ 2)) from rfl,
    show ((3 : ℝ) - 0) ^ 2 + ((4 : ℝ) - 0) ^ 2 + ((0 : ℝ) - 0) ^ 2 = 5 ^ 2 by
      norm_num,
    Real.sqrt_sq (by norm_num : (0 : ℝ) ≤ 5)]

theorem fnorm3_dispB : fnorm3 dispB = some (1 / 2) := by
  rw [show fnorm3 dispB = some (Real.sqrt (((0.3 : ℝ) - 0) ^ 2 +
      ((0.4 : ℝ) - 0) ^ 2 + ((0 : ℝ) - 0) ^ 2)) from rfl,
    show ((0.3 : ℝ) - 0) ^ 2 + ((0.4 : ℝ) - 0) ^ 2 + ((0 : ℝ) - 0) ^ 2 =
      (1 / 2) ^ 2 by norm_num,
    Real.sqrt_sq (by norm_num : (0 : ℝ) ≤ 1 / 2)]

/-- C2 counterexample: between structures A and B, residue 1's single
neighbor distance changes from 5 Å to 0.5 Å — far beyond every default
bin — yet the code scores lddt = 1, because it counts the signed
difference `dv <= cut` (a large decrease passes every bin), while the
score prescribed by the claim — differences *within* each bin — is 0. -/
theorem c2_counterexample :
    lddtRes protAD protBD [] 1 = Except.ok (some 1) ∧
    lddtResSpec protAD protBD [] 1 = Except.ok (some 0) := by
  classical
  rw [protAD_eq, protBD_eq]
  have hsub : fsub (some ((1 : ℝ) / 2)) (some (5 : ℝ)) = some (1 / 2 - 5) := by
    simp [fsub]
  constructor
  · have step : lddtRes protADL protBDL [] 1 =
        Except.ok (some
          ((defaultBins.map fun cut =>
              (([fsub (fnorm3 dispB) (fnorm3 dispA)].filter fun x =>
                  decide (fle x cut)).length : ℝ)).sum
            / (4 * ([fsub (fnorm3 dispB) (fnorm3 dispA)] :
                List FVal).length))) := rfl
    rw [step, fnorm3_dispA, fnorm3_dispB, hsub]
    have hfilter : ∀ c : ℝ, (1 : ℝ) / 2 - 5 ≤ c →
        ([some ((1 : ℝ) / 2 - 5)].filter fun x => decide (fle x c)) =
          [some (1 / 2 - 5)] := by
      intro c hc
      rw [List.filter_cons, decide_eq_true (show fle (some ((1 : ℝ) / 2 - 5)) c
        from hc)]
      rfl
    rw [defaultBins, List.map_cons, List.map_cons, List.map_cons,
      List.map_cons, List.map_nil, hfilter 0.5 (by norm_num),
      hfilter 1 (by norm_num), hfilter 2 (by norm_num),
      hfilter 4 (by norm_num)]
    norm_num
  · have step : lddtResSpec protADL protBDL [] 1 =
        Except.ok (some
          ((defaultBins.map fun cut =>
              (([fsub (fnorm3 dispB) (fnorm3 dispA)].filter fun x =>
                  decide (fabsLe x cut)).length : ℝ)).sum
            / (4 * ([fsub (fnorm3 dispB) (fnorm3 dispA)] :
                List FVal).length))) := rfl
    rw [step, fnorm3_dispA, fnorm3_dispB, hsub]
    have hfilter : ∀ c : ℝ, ¬ |(1 : ℝ) / 2 - 5| ≤ c →
        ([some ((1 : ℝ) / 2 - 5)].filter fun x => decide (fabsLe x c)) = [] := by
      intro c hc
      rw [List.filter_cons,
        decide_eq_false (show ¬ fabsLe (some ((1 : ℝ) / 2 - 5)) c from hc)]
      rfl
    rw [defaultBins, List.map_cons, List.map_cons, List.map_cons,
      List.map_cons, List.map_nil,
      hfilter 0.5 (by rw [show |(1 : ℝ) / 2 - 5| = 4.5 by rw [abs_of_nonpos]
        <;> norm_num]; norm_num),
      hfilter 1 (by rw [show |(1 : ℝ) / 2 - 5| = 4.5 by rw [abs_of_nonpos]
        <;> norm_num]; norm_num),
      hfilter 2 (by rw [show |(1 : ℝ) / 2 - 5| = 4.5 by rw [abs_of_nonpos]
        <;> norm_num]; norm_num),
      hfilter 4 (by rw [show |(1 : ℝ) / 2 - 5| = 4.5 by rw [abs_of_nonpos]
        <;> norm_num]; norm_num)]
    norm_num

theorem fle_mono {x : FVal} {a b : ℝ} (h : fle x a) (hab : a ≤ b) : fle x b := by
  cases x with
  | none => exact absurd h (by simp [fle])
  | some v => exact le_trans h hab

open Classical in
/-- C2 amended: for a residue with a non-empty shared neighbor set, the
lddt score equals the sum over the default bins of the count of *signed*
distance differences `v2 - v1` at most each bin, divided by 4 times the
shared-neighbor count; the score lies in [0,1]; and it equals 1 exactly
when every signed difference is at most the smallest bin, 0.5 Å — so a
distance that shrinks by any amount still counts towards every bin. -/
theorem c2_amended (p1 p2 : DefProt) (i : ℕ) (rd : ResData)
    (hpro : resPrologue p1 p2 i = Except.ok (some rd))
    (hlen : (rd.c1.map fnorm3).length = (rd.c2.map fnorm3).length)
    (hne : rd.c1 ≠ []) :
    ∃ s : ℝ,
      lddtRes p1 p2 [] i = Except.ok (some s) ∧
      s = (defaultBins.map fun cut =>
          (((List.zipWith fsub (rd.c2.map fnorm3) (rd.c1.map fnorm3)).filter
              fun x => decide (fle x cut)).length : ℝ)).sum
        / (4 * ((List.zipWith fsub (rd.c2.map fnorm3)
            (rd.c1.map fnorm3)).length : ℝ)) ∧
      0 ≤ s ∧ s ≤ 1 ∧
      (s = 1 ↔
        ∀ x ∈ List.zipWith fsub (rd.c2.map fnorm3) (rd.c1.map fnorm3),
          fle x 0.5) := by
  classical
  have hstep : lddtRes p1 p2 [] i =
      (if (rd.c1.map fnorm3).length = (rd.c2.map fnorm3).length then
        Except.ok (some
          ((defaultBins.map fun cut =>
              (((List.zipWith fsub (rd.c2.map fnorm3)
                  (rd.c1.map fnorm3)).filter
                fun x => decide (fle x cut)).length : ℝ)).sum
            / (4 * ((List.zipWith fsub (rd.c2.map fnorm3)
                (rd.c1.map fnorm3)).length : ℝ))))
      else Except.error ()) := by
    rw [lddtRes, hpro]
    rfl
  set dv := List.zipWith fsub (rd.c2.map fnorm3) (rd.c1.map fnorm3) with hdv
  set n := dv.length with hnn
  have hn1 : n = rd.c1.length := by
    rw [hnn, hdv, List.length_zipWith, List.length_map, List.length_map,
      ← List.length_map rd.c1 fnorm3, ← List.length_map rd.c2 fnorm3, ← hlen,
      min_self]
  have hnpos : 0 < n := by
    rw [hn1]
    exact List.length_pos.mpr hne
  have hnr : (0 : ℝ) < 4 * (n : ℝ) := by
    have : (0 : ℝ) < (n : ℝ) := by exact_mod_cast hnpos
    linarith
  set k05 := (dv.filter fun x => decide (fle x 0.5)).length with hk05
  set k1 := (dv.filter fun x => decide (fle x 1)).length with hk1
  set k2 := (dv.filter fun x => decide (fle x 2)).length with hk2
  set k4 := (dv.filter fun x => decide (fle x 4)).length with hk4
  have hsum : (defaultBins.map fun cut =>
      ((dv.filter fun x => decide (fle x cut)).length : ℝ)).sum =
      (k05 : ℝ) + k1 + k2 + k4 := by
    rw [defaultBins, List.map_cons, List.map_cons, List.map_cons,
      List.map_cons, List.map_nil, List.sum_cons, List.sum_cons,
      List.sum_cons, List.sum_cons, List.sum_nil]
    ring
  have hle05 : k05 ≤ n := List.length_filter_le _ _
  have hle1 : k1 ≤ n := List.length_filter_le _ _
  have hle2 : k2 ≤ n := List.length_filter_le _ _
  have hle4 : k4 ≤ n := List.length_filter_le _ _
  have hle05r : (k05 : ℝ) ≤ n := by exact_mod_cast hle05
  have hle1r : (k1 : ℝ) ≤ n := by exact_mod_cast hle1
  have hle2r : (k2 : ℝ) ≤ n := by exact_mod_cast hle2
  have hle4r : (k4 : ℝ) ≤ n := by exact_mod_cast hle4
  refine ⟨_, by rw [hstep, if_pos hlen], rfl, ?_, ?_, ?_⟩
  · rw [hsum]
    positivity
  · rw [hsum]
    rw [div_le_one hnr]
    linarith
  · rw [hsum]
    constructor
    · intro hs
      rw [div_eq_one_iff_eq (ne_of_gt hnr)] at hs
      have hk05n : k05 = n := by
        have : (k05 : ℝ) = n := by linarith
        exact_mod_cast this
      have hall := List.filter_length_eq_length.mp hk05n
      intro x hx
      exact of_decide_eq_true (hall x hx)
    · intro hall
      have hfeq : ∀ c : ℝ, (1 : ℝ) / 2 ≤ c →
          (dv.filter fun x => decide (fle x c)) = dv := by
        intro c hc
        apply List.filter_eq_self.mpr
        intro a ha
        exact decide_eq_true (fle_mono (of_decide_eq_true
          (decide_eq_true (hall a ha))) (by norm_num [hc]))
      have e05 : k05 = n := by
        rw [hk05, hfeq 0.5 (by norm_num)]
      have e1 : k1 = n := by
        rw [hk1, hfeq 1 (by norm_num)]
      have e2 : k2 = n := by
        rw [hk2, hfeq 2 (by norm_num)]
      have e4 : k4 = n := by
        rw [hk4, hfeq 4 (by norm_num)]
      rw [e05, e1, e2, e4]
      rw [div_eq_one_iff_eq (ne_of_gt hnr)]
      ring

open Classical in
/-- Witness for the amended C2: the self-comparison of the derived
two-residue chain at residue 0, whose single shared neighbor gives
score 1. -/
theorem c2_amended_witness :
    ∃ s : ℝ,
      lddtRes pair2ProtL pair2ProtL [] 0 = Except.ok (some s) ∧
      s = (defaultBins.map fun cut =>
          (((List.zipWith fsub ([zRow].map fnorm3) ([zRow].map fnorm3)).filter
              fun x => decide (fle x cut)).length : ℝ)).sum
        / (4 * ((List.zipWith fsub ([zRow].map fnorm3)
            ([zRow].map fnorm3)).length : ℝ)) ∧
      0 ≤ s ∧ s ≤ 1 ∧
      (s = 1 ↔
        ∀ x ∈ List.zipWith fsub ([zRow].map fnorm3) ([zRow].map fnorm3),
          fle x 0.5) :=
  c2_amended pair2ProtL pair2ProtL 0 ⟨[0], [zRow], [zRow]⟩ rfl rfl
    (by simp)

end AF2
